import Mathlib

/-!
Verification development for the mars-rover Stellar/Soroban sandbox.

The repository is a TypeScript binding layer (`SandboxServer`, `makeSandbox`,
`getLedgerInfo`) over a native `MarsRover` core.  The TypeScript layer under
`src/` is embedded directly from the source; the native core (ledger clock,
account store, entry store, simulator, executor) is not part of the source
tree, so its operations are modelled from the specification, each marked
`Modelled from the spec:` in its doc comment.
-/

namespace MarsRover

/-- Find the value bound to key `k` in an association list (first match wins). -/
def assocFind {α β : Type} [DecidableEq α] (k : α) : List (α × β) → Option β
  | [] => none
  | (a, b) :: rest => if a = k then some b else assocFind k rest

/-- Bind key `k` to `v` in an association list, overwriting the first existing
binding or appending a new one. -/
def assocSet {α β : Type} [DecidableEq α] (k : α) (v : β) : List (α × β) → List (α × β)
  | [] => [(k, v)]
  | (a, b) :: rest => if a = k then (k, v) :: rest else (a, b) :: assocSet k v rest

theorem assocFind_assocSet_self {α β : Type} [DecidableEq α] (k : α) (v : β)
    (l : List (α × β)) : assocFind k (assocSet k v l) = some v := by
  induction l with
  | nil => simp [assocSet, assocFind]
  | cons hd tl ih =>
    obtain ⟨a, b⟩ := hd
    by_cases h : a = k
    · simp [assocSet, assocFind, h]
    · simp [assocSet, assocFind, h, ih]

/-- Value of a base64 alphabet character, `none` for characters outside the
alphabet (the `=` padding is handled by the group decoder). -/
def base64Index (c : Char) : Option Nat :=
  if 65 ≤ c.toNat ∧ c.toNat ≤ 90 then some (c.toNat - 65)
  else if 97 ≤ c.toNat ∧ c.toNat ≤ 122 then some (c.toNat - 97 + 26)
  else if 48 ≤ c.toNat ∧ c.toNat ≤ 57 then some (c.toNat - 48 + 52)
  else if c = '+' then some 62
  else if c = '/' then some 63
  else none

/-- Decode a base64 character stream, four characters to three bytes, with
standard `=` padding in the final group. -/
def base64DecodeChars : List Char → Option (List Nat)
  | [] => some []
  | c1 :: c2 :: c3 :: c4 :: rest => do
    let a ← base64Index c1
    let b ← base64Index c2
    if c3 = '=' then
      if c4 = '=' ∧ rest = [] then some [a * 4 + b / 16] else none
    else do
      let c ← base64Index c3
      if c4 = '=' then
        if rest = [] then some [a * 4 + b / 16, b % 16 * 16 + c / 4] else none
      else do
        let d ← base64Index c4
        let tail ← base64DecodeChars rest
        some ((a * 4 + b / 16) :: (b % 16 * 16 + c / 4) :: (c % 4 * 64 + d) :: tail)
  | _ => none

/-- Decode a base64 string into bytes, `none` when it is not valid base64.
Models the byte-level effect of the SDK's `fromXDR(s, base64)` (the XDR
structural parse that follows is elided: only the byte decoding matters to
the properties below). -/
def base64Decode (s : String) : Option (List Nat) :=
  base64DecodeChars s.data

/-- Byte content of node's `Buffer.from(s)` (default utf8 encoding) for the
ASCII range, which covers every input used below: codepoint per character,
no base64 step. -/
def bufferFrom (s : String) : List Nat :=
  s.data.map Char.toNat

/-- Durability class of a contract-data entry. -/
inductive Durability
  | temporary
  | persistent
deriving DecidableEq, Repr

/-- Account record: balance and sequence number (spec section 3). -/
structure Account where
  balance : Nat
  seq_num : Nat
deriving DecidableEq, Repr

/-- Ledger clock and network constants, the record returned by
`getLedgerInfo` (src/src/ts/index.ts, type LedgerInfo). -/
structure LedgerInfo where
  protocol_version : Nat
  sequence_number : Nat
  timestamp : Nat
  network_id : List Nat
  base_reserve : Nat
  min_temp_entry_ttl : Nat
  min_persistent_entry_ttl : Nat
  max_entry_ttl : Nat
deriving DecidableEq, Repr

/-- Key of a ledger entry: contract address, durability, storage key. -/
structure EntryKey where
  address : String
  durability : Durability
  key : String
deriving DecidableEq, Repr

/-- A stored contract-code or contract-data entry with its expiration. -/
structure LedgerEntry where
  value : String
  live_until_ledger_seq : Nat
deriving DecidableEq, Repr

/-- Decoded transaction envelope.  XDR decoding happens at the binding
boundary (`MalformedInput` on undecodable input is raised there and is not
part of this model); `source` is the source account identifier, `seq` the
declared sequence number, `fee` the declared fee. -/
structure Envelope where
  source : String
  seq : Nat
  fee : Nat
  invocation : String
  args : List String
deriving DecidableEq, Repr

/-- Status of an executed transaction. -/
inductive TxStatus
  | success
  | failed
deriving DecidableEq, Repr

/-- Record of an executed transaction, keyed by transaction hash.  The hash
is bit-identical to the SDK's hash of the canonical envelope, hence
injective on envelopes; it is modelled by the envelope value itself. -/
structure TransactionRecord where
  envelope : Envelope
  status : TxStatus
  result : String
  return_value : Option String
deriving DecidableEq, Repr

/-- Error taxonomy of the sandbox (spec section 7). -/
inductive SandboxError
  | malformedInput
  | notFound
  | invalidKey
  | sequenceMismatch
  | unauthorized
  | insufficientBalance
  | resourceLimitExceeded
  | contractTrap (msg : String)
deriving DecidableEq, Repr

/-- Full persisted state of one sandbox instance: account store, entry
store, ledger clock, transaction log. -/
structure SandboxState where
  accounts : List (String × Account)
  entries : List (EntryKey × LedgerEntry)
  ledger : LedgerInfo
  transactions : List (Envelope × TransactionRecord)
deriving DecidableEq, Repr

/-- Result of one host-evaluator invocation: entry writes, TTL extensions,
required authorization entries (base64-encodable), events and a return
value on success; a diagnostic message on a trap (missing function or
missing contract also surface as evaluator failures). -/
inductive EvalOutcome
  | success (writes : List (EntryKey × LedgerEntry)) (ttlExtensions : List (EntryKey × Nat))
      (auth : List String) (events : List String) (ret : String)
  | trap (diagnostic : String)
deriving DecidableEq, Repr

/-- The opaque external collaborators of the core: the host-function
evaluator, the signature-verification primitive, the footprint encoder of
the response codec and the resource-fee estimator. -/
structure HostInterface where
  eval : SandboxState → Envelope → EvalOutcome
  sigVerify : Envelope → Bool
  encodeTransactionData : List (EntryKey × LedgerEntry) → List (EntryKey × Nat) → String
  estimateFee : Envelope → Nat

/-- Modelled from the spec: `AccountStore.fund` / `MarsRover.fundAccount`
(native core, not under src): creates the account if absent with
`sequence_number = 0`, or overwrites the balance of an existing account
(not an increment).  The `InvalidKey` rejection of malformed identifier
strings happens at the binding boundary before this point; ids here are
already well-formed. -/
def fundAccount (s : SandboxState) (id : String) (balance : Nat) : SandboxState :=
  match assocFind id s.accounts with
  | some acct => { s with accounts := assocSet id { acct with balance := balance } s.accounts }
  | none => { s with accounts := assocSet id { balance := balance, seq_num := 0 } s.accounts }

/-- Modelled from the spec: `AccountStore.balance` / `MarsRover.getBalance`
(native core, not under src): fails with `NotFound` if the account does not
exist. -/
def getBalance (s : SandboxState) (id : String) : Except SandboxError Nat :=
  match assocFind id s.accounts with
  | some acct => Except.ok acct.balance
  | none => Except.error SandboxError.notFound

/-- Modelled from the spec: `AccountStore.account_info` / `MarsRover.getAccount`
(native core, not under src): id and sequence number, `NotFound` if absent. -/
def getAccount (s : SandboxState) (id : String) : Except SandboxError (String × Nat) :=
  match assocFind id s.accounts with
  | some acct => Except.ok (id, acct.seq_num)
  | none => Except.error SandboxError.notFound

/-- Modelled from the spec: `LedgerClock.set_time` / `MarsRover.setTime`
(native core, not under src): overwrites the timestamp, no validation
beyond non-negativity (the `Nat` domain), arbitrary jumps permitted. -/
def setTime (s : SandboxState) (t : Nat) : SandboxState :=
  { s with ledger := { s.ledger with timestamp := t } }

/-- Modelled from the spec: `LedgerClock.set_sequence` / `MarsRover.setSequence`
(native core, not under src): overwrites the ledger sequence number, no
validation beyond non-negativity, arbitrary jumps permitted. -/
def setSequence (s : SandboxState) (n : Nat) : SandboxState :=
  { s with ledger := { s.ledger with sequence_number := n } }

/-- Snapshot of the ledger clock, the `getLedgerInfo` query
(src/src/ts/index.ts parses the core's JSON into this record unchanged). -/
def getLedgerInfo (s : SandboxState) : LedgerInfo :=
  s.ledger

/-- Modelled from the spec: `EntryStore.get` (native core, not under src):
fails with `NotFound` if the entry is missing or expired
(`live_until_ledger_seq < current_sequence`), even when the expired entry
is still physically stored. -/
def entryGet (s : SandboxState) (k : EntryKey) : Except SandboxError LedgerEntry :=
  match assocFind k s.entries with
  | none => Except.error SandboxError.notFound
  | some entry =>
    if entry.live_until_ledger_seq < s.ledger.sequence_number then
      Except.error SandboxError.notFound
    else Except.ok entry

/-- Modelled from the spec: `MarsRover.getContractData` (native core, not
under src): looks up via `EntryStore.get`; `NotFound` surfaces as an error
to the caller, not a null value. -/
def getContractData (s : SandboxState) (address : String) (key : String)
    (durability : Durability) : Except SandboxError LedgerEntry :=
  entryGet s { address := address, durability := durability, key := key }

/-- Successful simulation payload as produced by the native core: footprint
as a base64 XDR string (`transactionData`), authorization entries as base64
XDR strings, fee estimate, events, return value, latest ledger. -/
structure SimSuccess where
  transactionData : String
  auth : List String
  minResourceFee : Nat
  events : List String
  returnValue : String
  latestLedger : Nat
deriving DecidableEq, Repr

/-- Wire result of the core's `simulateTx`: success payload, or a result
tagged as an error carrying a human-readable diagnostic string. -/
inductive SimulateTxResult
  | ok (payload : SimSuccess)
  | err (error : String)
deriving DecidableEq, Repr

/-- Modelled from the spec: `MarsRover.simulateTx` (native core, not under
src): runs the host evaluator in footprint-discovery mode against a
read-only snapshot of the state and never mutates persisted state under
any outcome, so the state comes back unchanged; an evaluator trap or
missing-function error becomes an error-tagged result, not an exception. -/
def simulateTx (hi : HostInterface) (s : SandboxState) (e : Envelope) :
    SimulateTxResult × SandboxState :=
  match hi.eval s e with
  | EvalOutcome.success writes exts auth events ret =>
    (SimulateTxResult.ok
      { transactionData := hi.encodeTransactionData writes exts
        auth := auth
        minResourceFee := hi.estimateFee e
        events := events
        returnValue := ret
        latestLedger := s.ledger.sequence_number }, s)
  | EvalOutcome.trap msg => (SimulateTxResult.err msg, s)

/-- Apply the evaluator's entry writes to the entry store in order. -/
def applyWrites (entries : List (EntryKey × LedgerEntry))
    (writes : List (EntryKey × LedgerEntry)) : List (EntryKey × LedgerEntry) :=
  writes.foldl (fun acc w => assocSet w.1 w.2 acc) entries

/-- Apply the evaluator's TTL extensions: bump `live_until_ledger_seq` of
each named entry that exists. -/
def applyExtensions (entries : List (EntryKey × LedgerEntry))
    (exts : List (EntryKey × Nat)) : List (EntryKey × LedgerEntry) :=
  exts.foldl
    (fun acc x =>
      match assocFind x.1 acc with
      | some entry => assocSet x.1 { entry with live_until_ledger_seq := x.2 } acc
      | none => acc)
    entries

/-- Modelled from the spec: `TransactionExecutor.execute` /
`MarsRover.sendTransaction` (native core, not under src), section 4.6,
checks in order with no partial effects: signature verification
(`Unauthorized`), source-account lookup (`NotFound`),
`envelope.sequence_number = account.sequence_number + 1`
(`SequenceMismatch`), then the host evaluator.  On evaluator success the
commit atomically applies entry writes and TTL extensions, advances the
source sequence number by 1, debits the declared fee
(`InsufficientBalance` if it would go negative, checked before any write
is durable) and appends a success record keyed by the transaction hash.
On an evaluator trap the sequence number still advances and the fee is
still debited, but the entry writes are discarded and a failed record is
appended.  Envelopes are modelled post-decode (step 1, `MalformedInput`
on undecodable XDR, lives at the binding boundary). -/
def sendTransaction (hi : HostInterface) (s : SandboxState) (e : Envelope) :
    Except SandboxError TransactionRecord × SandboxState :=
  if hi.sigVerify e = true then
    match assocFind e.source s.accounts with
    | some acct =>
      if e.seq = acct.seq_num + 1 then
        match hi.eval s e with
        | EvalOutcome.success writes exts _auth _events ret =>
          if acct.balance < e.fee then (Except.error SandboxError.insufficientBalance, s)
          else
            let acct2 : Account := { balance := acct.balance - e.fee, seq_num := acct.seq_num + 1 }
            let record : TransactionRecord :=
              { envelope := e, status := TxStatus.success, result := "", return_value := some ret }
            (Except.ok record,
              { s with
                accounts := assocSet e.source acct2 s.accounts
                entries := applyExtensions (applyWrites s.entries writes) exts
                transactions := (e, record) :: s.transactions })
        | EvalOutcome.trap msg =>
          if acct.balance < e.fee then (Except.error SandboxError.insufficientBalance, s)
          else
            let acct2 : Account := { balance := acct.balance - e.fee, seq_num := acct.seq_num + 1 }
            let record : TransactionRecord :=
              { envelope := e, status := TxStatus.failed, result := msg, return_value := none }
            (Except.ok record,
              { s with
                accounts := assocSet e.source acct2 s.accounts
                transactions := (e, record) :: s.transactions })
      else (Except.error SandboxError.sequenceMismatch, s)
    | none => (Except.error SandboxError.notFound, s)
  else (Except.error SandboxError.unauthorized, s)

/-- Modelled from the spec: `MarsRover.getTransaction` (native core, not
under src): returns the stored record for a hash or `NotFound`; hashes are
modelled by the canonical envelope (the hash is injective on it). -/
def getTransaction (s : SandboxState) (h : Envelope) : Except SandboxError TransactionRecord :=
  match assocFind h s.transactions with
  | some record => Except.ok record
  | none => Except.error SandboxError.notFound

/-- Shallow embedding of `SandboxServer.getContractData`
(src/src/ts/server.ts and src/unnamed/part_000): the `durability`
parameter defaults to `rpc.Durability.Persistent` when omitted (modelled
as `Option`), then the core `getContractData` is called.  The
string/Contract/Address normalisation of the contract argument is pure
marshalling and is elided: the contract arrives as its address string. -/
def serverGetContractData (s : SandboxState) (contract : String) (key : String)
    (durability : Option Durability) : Except SandboxError LedgerEntry :=
  getContractData s contract key (durability.getD Durability.persistent)

/-- Simulation response after the TypeScript layer's decoding: on success
`transactionData` and each auth entry are decoded from base64 XDR
(`none` when a string is not valid base64, where the SDK constructor
would throw); an error result is the diagnostic string unchanged. -/
inductive SimulateTransactionResponse
  | ok (transactionData : Option (List Nat)) (auth : List (Option (List Nat)))
      (minResourceFee : Nat) (events : List String) (returnValue : String)
      (latestLedger : Nat)
  | err (error : String)
deriving DecidableEq, Repr

/-- Shallow embedding of `SandboxServer.simulateTransaction`
(src/src/ts/server.ts): calls the core `simulateTx` on the envelope; if
the parsed result carries an `error` field it is returned as-is — a
normal return, no exception, and no XDR decoding of `transactionData` or
of the auth entries; otherwise `transactionData` is decoded via
`SorobanTransactionData.fromXDR(_, base64)` and each auth entry via
`SorobanAuthorizationEntry.fromXDR(_, base64)`. -/
def serverSimulateTransaction (hi : HostInterface) (s : SandboxState) (e : Envelope) :
    SimulateTransactionResponse × SandboxState :=
  let sim := simulateTx hi s e
  match sim.1 with
  | SimulateTxResult.err msg => (SimulateTransactionResponse.err msg, sim.2)
  | SimulateTxResult.ok p =>
    (SimulateTransactionResponse.ok (base64Decode p.transactionData)
      (p.auth.map base64Decode) p.minResourceFee p.events p.returnValue
      p.latestLedger, sim.2)

/-- Raw transaction-query response as parsed from the core's JSON
(`JSON.parse` in src/unnamed/part_000): `envelopeXdr` and `resultXdr` are
base64 XDR strings; `returnValue`, when present, is the raw payload the
JSON value carries. -/
structure RawTxResponse where
  status : TxStatus
  envelopeXdr : String
  resultXdr : String
  returnValue : Option String
deriving DecidableEq, Repr

/-- Transaction-query response after the TypeScript layer's decoding,
fields as byte sequences (`none` for a failed decode). -/
structure DecodedTxResponse where
  status : TxStatus
  envelopeXdr : Option (List Nat)
  resultXdr : Option (List Nat)
  returnValue : Option (List Nat)
deriving DecidableEq, Repr

/-- Shallow embedding of `SandboxServer.getTransaction`
(src/unnamed/part_000, lines 84-95): `envelopeXdr` is decoded via
`TransactionEnvelope.fromXDR(_, base64)` and `resultXdr` via
`TransactionResult.fromXDR(_, base64)`, but `returnValue`, when present,
is decoded via `ScVal.fromXDR(Buffer.from(response.returnValue))` — raw
bytes, with no base64 step. -/
def serverGetTransaction (raw : RawTxResponse) : DecodedTxResponse :=
  { status := raw.status
    envelopeXdr := base64Decode raw.envelopeXdr
    resultXdr := base64Decode raw.resultXdr
    returnValue := raw.returnValue.map bufferFrom }

/-- The spec's reading of the transaction-query response (section 6): all
three XDR fields — `envelopeXdr`, `resultXdr` and `returnValue` when
present — are base64-encoded XDR strings that the caller decodes.  Stated
for comparison with `serverGetTransaction`, the embedding of the code. -/
def serverGetTransactionClaim (raw : RawTxResponse) : DecodedTxResponse :=
  { status := raw.status
    envelopeXdr := base64Decode raw.envelopeXdr
    resultXdr := base64Decode raw.resultXdr
    returnValue := raw.returnValue.bind base64Decode }

/-- Ledger-clock fixture for the concrete witnesses. -/
def info0 : LedgerInfo :=
  { protocol_version := 22, sequence_number := 0, timestamp := 0, network_id := []
    base_reserve := 0, min_temp_entry_ttl := 16, min_persistent_entry_ttl := 120960
    max_entry_ttl := 3110400 }

/-- Envelope fixture: source account `A`, declared sequence 1, fee 10. -/
def envA : Envelope :=
  { source := "A", seq := 1, fee := 10, invocation := "f", args := [] }

/-- State fixture: account `A` funded with 100 at sequence number 0. -/
def stateA : SandboxState :=
  { accounts := [("A", { balance := 100, seq_num := 0 })], entries := []
    ledger := info0, transactions := [] }

/-- Host-interface fixture whose evaluator always succeeds with no writes. -/
def hiOk : HostInterface :=
  { eval := fun _ _ => EvalOutcome.success [] [] [] [] "ret"
    sigVerify := fun _ => true
    encodeTransactionData := fun _ _ => "AAAA"
    estimateFee := fun _ => 0 }

/-- Host-interface fixture whose evaluator always traps with diagnostic boom. -/
def hiTrap : HostInterface :=
  { eval := fun _ _ => EvalOutcome.trap "boom"
    sigVerify := fun _ => true
    encodeTransactionData := fun _ _ => "AAAA"
    estimateFee := fun _ => 0 }

/-- The record produced by executing `envA` on `stateA` under `hiOk`. -/
def recA : TransactionRecord :=
  { envelope := envA, status := TxStatus.success, result := "", return_value := some "ret" }

/-- The state after executing `envA` on `stateA` under `hiOk`. -/
def stateA2 : SandboxState :=
  { accounts := [("A", { balance := 90, seq_num := 1 })], entries := []
    ledger := info0, transactions := [(envA, recA)] }

/-- Key fixture for an expired-entry state. -/
def expiredKey : EntryKey :=
  { address := "C", durability := Durability.persistent, key := "k" }

/-- State fixture holding one physically stored entry that expired at
ledger sequence 3 while the clock is at sequence 5. -/
def stateExp : SandboxState :=
  { accounts := [], entries := [(expiredKey, { value := "v", live_until_ledger_seq := 3 })]
    ledger := { info0 with sequence_number := 5 }, transactions := [] }

/-- Raw transaction-query fixture whose `returnValue` payload is the
string AAAA: read as base64 it denotes the bytes 0,0,0, read as raw bytes
it is 65,65,65,65. -/
def rawTx0 : RawTxResponse :=
  { status := TxStatus.success, envelopeXdr := "AAAA", resultXdr := "AAAA"
    returnValue := some "AAAA" }

/-- Inversion of a committed execution: a `sendTransaction` call that
returns a record passed signature verification, found the source account,
matched `envelope.seq = account.seq_num + 1`, had the fee covered, and
committed the advanced/debited source account and the appended record;
on a failed record the entry store is untouched. -/
theorem sendTransaction_ok_inv (hi : HostInterface) (s : SandboxState) (e : Envelope)
    (r : TransactionRecord) (s' : SandboxState)
    (h : sendTransaction hi s e = (Except.ok r, s')) :
    hi.sigVerify e = true ∧
    ∃ acct, assocFind e.source s.accounts = some acct ∧
      e.seq = acct.seq_num + 1 ∧ ¬ acct.balance < e.fee ∧
      s'.accounts = assocSet e.source
        { balance := acct.balance - e.fee, seq_num := acct.seq_num + 1 } s.accounts ∧
      s'.transactions = (e, r) :: s.transactions ∧
      (r.status = TxStatus.success ∨
        (r.status = TxStatus.failed ∧ s'.entries = s.entries)) := by
  by_cases hsig : hi.sigVerify e = true
  · refine ⟨hsig, ?_⟩
    cases hacct : assocFind e.source s.accounts with
    | none => simp [sendTransaction, hsig, hacct] at h
    | some acct =>
      by_cases hseq : e.seq = acct.seq_num + 1
      · by_cases hfee : acct.balance < e.fee
        · cases heval : hi.eval s e with
          | success writes exts auth events ret =>
            simp [sendTransaction, hsig, hacct, hseq, heval, hfee] at h
          | trap msg =>
            simp [sendTransaction, hsig, hacct, hseq, heval, hfee] at h
        · cases heval : hi.eval s e with
          | success writes exts auth events ret =>
            simp only [sendTransaction, hsig, hacct, hseq, heval, hfee, if_true,
              if_false, ite_false, ite_true, if_pos, reduceIte, Prod.mk.injEq,
              Except.ok.injEq] at h
            obtain ⟨hr, hs⟩ := h
            subst hs
            refine ⟨acct, rfl, hseq, hfee, rfl, by rw [hr], Or.inl (by rw [← hr])⟩
          | trap msg =>
            simp only [sendTransaction, hsig, hacct, hseq, heval, hfee, if_true,
              if_false, ite_false, ite_true, if_pos, reduceIte, Prod.mk.injEq,
              Except.ok.injEq] at h
            obtain ⟨hr, hs⟩ := h
            subst hs
            exact ⟨acct, rfl, hseq, hfee, rfl, by rw [hr],
              Or.inr ⟨by rw [← hr], rfl⟩⟩
      · simp [sendTransaction, hsig, hacct, hseq] at h
  · simp [sendTransaction, hsig] at h

/-- C1: simulation is pure with respect to persisted state: for every
valid envelope with a pre-funded source account, `simulate` — whatever
its outcome, evaluator traps included — leaves every subsequent
`balance`, `account_info` and `get_contract_data` result unchanged. -/
theorem simulate_preserves_observations (hi : HostInterface) (s : SandboxState)
    (e : Envelope) (b : Nat) (_hfund : getBalance s e.source = Except.ok b) :
    (∀ a, getBalance (simulateTx hi s e).2 a = getBalance s a) ∧
    (∀ a, getAccount (simulateTx hi s e).2 a = getAccount s a) ∧
    (∀ address key d, getContractData (simulateTx hi s e).2 address key d =
      getContractData s address key d) := by
  have hstate : (simulateTx hi s e).2 = s := by
    unfold simulateTx
    cases hi.eval s e <;> rfl
  rw [hstate]
  exact ⟨fun _ => rfl, fun _ => rfl, fun _ _ _ => rfl⟩

/-- Witness for C1 at a concrete trapping evaluator and funded account. -/
theorem simulate_preserves_observations_witness :
    getBalance stateA envA.source = Except.ok 100 ∧
    getBalance (simulateTx hiTrap stateA envA).2 "A" = getBalance stateA "A" :=
  ⟨rfl, (simulate_preserves_observations hiTrap stateA envA 100 rfl).1 "A"⟩

/-- C2: when the host evaluator fails (contract trap or invalid function)
during `execute`, the source account's sequence number still increases by
exactly 1, no entry write from the invocation is observable afterwards,
the declared fee is still debited, and a failed-status record is
recorded under the transaction hash. -/
theorem execute_trap_effects (hi : HostInterface) (s : SandboxState) (e : Envelope)
    (acct : Account) (msg : String)
    (hsig : hi.sigVerify e = true)
    (hacct : assocFind e.source s.accounts = some acct)
    (hseq : e.seq = acct.seq_num + 1)
    (heval : hi.eval s e = EvalOutcome.trap msg)
    (hfee : e.fee ≤ acct.balance) :
    ((sendTransaction hi s e).2).entries = s.entries ∧
    assocFind e.source ((sendTransaction hi s e).2).accounts =
      some { balance := acct.balance - e.fee, seq_num := acct.seq_num + 1 } ∧
    (sendTransaction hi s e).1 = Except.ok
      { envelope := e, status := TxStatus.failed, result := msg, return_value := none } ∧
    getTransaction (sendTransaction hi s e).2 e = Except.ok
      { envelope := e, status := TxStatus.failed, result := msg, return_value := none } := by
  have hnlt : ¬ acct.balance < e.fee := Nat.not_lt.mpr hfee
  simp [sendTransaction, hsig, hacct, hseq, heval, hnlt, getTransaction, assocFind,
    assocFind_assocSet_self]

/-- Witness for C2 at a concrete trapping evaluator. -/
theorem execute_trap_effects_witness :
    ((sendTransaction hiTrap stateA envA).2).entries = stateA.entries ∧
    assocFind envA.source ((sendTransaction hiTrap stateA envA).2).accounts =
      some { balance := 90, seq_num := 1 } ∧
    (sendTransaction hiTrap stateA envA).1 = Except.ok
      { envelope := envA, status := TxStatus.failed, result := "boom", return_value := none } ∧
    getTransaction (sendTransaction hiTrap stateA envA).2 envA = Except.ok
      { envelope := envA, status := TxStatus.failed, result := "boom", return_value := none } :=
  execute_trap_effects hiTrap stateA envA { balance := 100, seq_num := 0 } "boom"
    rfl rfl rfl rfl (by decide)

/-- C3: after every successful `execute`, the source account's sequence
number has increased by exactly 1 and `get_transaction` at the
transaction's hash returns a record with status success. -/
theorem execute_success_advances_sequence_and_records (hi : HostInterface)
    (s : SandboxState) (e : Envelope) (r : TransactionRecord) (s' : SandboxState)
    (h : sendTransaction hi s e = (Except.ok r, s'))
    (hr : r.status = TxStatus.success) :
    (∃ acct acct2, assocFind e.source s.accounts = some acct ∧
      assocFind e.source s'.accounts = some acct2 ∧
      acct2.seq_num = acct.seq_num + 1) ∧
    getTransaction s' e = Except.ok r ∧ r.status = TxStatus.success := by
  obtain ⟨hsig, acct, hacct, hseq, hfee, haccs, htxs, _⟩ :=
    sendTransaction_ok_inv hi s e r s' h
  refine ⟨⟨acct, { balance := acct.balance - e.fee, seq_num := acct.seq_num + 1 },
    hacct, ?_, rfl⟩, ?_, hr⟩
  · rw [haccs]
    exact assocFind_assocSet_self ..
  · simp [getTransaction, htxs, assocFind]

/-- Witness for C3 at a concrete successful execution. -/
theorem execute_success_advances_sequence_and_records_witness :
    (∃ acct acct2, assocFind envA.source stateA.accounts = some acct ∧
      assocFind envA.source stateA2.accounts = some acct2 ∧
      acct2.seq_num = acct.seq_num + 1) ∧
    getTransaction stateA2 envA = Except.ok recA ∧ recA.status = TxStatus.success :=
  execute_success_advances_sequence_and_records hiOk stateA envA recA stateA2 rfl rfl

/-- C4: re-submitting the same fully-formed, already-sequenced envelope
after its first successful execution fails with `SequenceMismatch`,
because the executor requires
`envelope.sequence_number = account.sequence_number + 1`. -/
theorem resubmit_envelope_sequence_mismatch (hi : HostInterface) (s : SandboxState)
    (e : Envelope) (r : TransactionRecord) (s' : SandboxState)
    (h : sendTransaction hi s e = (Except.ok r, s'))
    (_hr : r.status = TxStatus.success) :
    sendTransaction hi s' e = (Except.error SandboxError.sequenceMismatch, s') := by
  obtain ⟨hsig, acct, hacct, hseq, hfee, haccs, htxs, _⟩ :=
    sendTransaction_ok_inv hi s e r s' h
  have hfind : assocFind e.source s'.accounts =
      some { balance := acct.balance - e.fee, seq_num := acct.seq_num + 1 } := by
    rw [haccs]
    exact assocFind_assocSet_self ..
  have hne : ¬ e.seq = acct.seq_num + 1 + 1 := by omega
  simp [sendTransaction, hsig, hfind, hne]

/-- Witness for C4 at a concrete first execution and re-submission. -/
theorem resubmit_envelope_sequence_mismatch_witness :
    sendTransaction hiOk stateA2 envA = (Except.error SandboxError.sequenceMismatch, stateA2) :=
  resubmit_envelope_sequence_mismatch hiOk stateA envA recA stateA2 rfl rfl

/-- C5: `get_contract_data` for an entry whose `live_until_ledger_seq` is
strictly below the current ledger sequence returns `NotFound` as an error
to the caller even when the entry is still physically stored. -/
theorem expired_entry_not_found (s : SandboxState) (address key : String)
    (d : Durability) (entry : LedgerEntry)
    (hstored : assocFind { address := address, durability := d, key := key } s.entries =
      some entry)
    (hexp : entry.live_until_ledger_seq < s.ledger.sequence_number) :
    getContractData s address key d = Except.error SandboxError.notFound := by
  simp [getContractData, entryGet, hstored, hexp]

/-- Witness for C5 at a concrete stored-but-expired entry. -/
theorem expired_entry_not_found_witness :
    getContractData stateExp "C" "k" Durability.persistent =
      Except.error SandboxError.notFound :=
  expired_entry_not_found stateExp "C" "k" Durability.persistent
    { value := "v", live_until_ledger_seq := 3 } rfl (by decide)

/-- C6: `fund` overwrites rather than accumulates: after `fund(a, b)`,
`balance(a)` is exactly `b` whether or not `a` existed, and an absent
account is created with sequence number 0. -/
theorem fund_overwrites_balance (s : SandboxState) (id : String) (b : Nat) :
    getBalance (fundAccount s id b) id = Except.ok b ∧
    (assocFind id s.accounts = none →
      assocFind id (fundAccount s id b).accounts =
        some { balance := b, seq_num := 0 }) := by
  cases hacct : assocFind id s.accounts with
  | some acct =>
    refine ⟨?_, fun hnone => by simp [hacct] at hnone⟩
    simp [fundAccount, hacct, getBalance, assocFind_assocSet_self]
  | none =>
    refine ⟨?_, fun _ => ?_⟩
    · simp [fundAccount, hacct, getBalance, assocFind_assocSet_self]
    · simp [fundAccount, hacct, assocFind_assocSet_self]

/-- Witness for C6 funding a previously absent account. -/
theorem fund_overwrites_balance_witness :
    getBalance (fundAccount stateA "B" 7) "B" = Except.ok 7 ∧
    assocFind "B" (fundAccount stateA "B" 7).accounts =
      some { balance := 7, seq_num := 0 } :=
  ⟨(fund_overwrites_balance stateA "B" 7).1,
    (fund_overwrites_balance stateA "B" 7).2 rfl⟩

/-- C7 counterexample: on the concrete response `rawTx0`, the embedded
`SandboxServer.getTransaction` differs from the claim's all-base64
reading: the code decodes `returnValue` from raw bytes
(`Buffer.from(response.returnValue)`, bytes 65,65,65,65), not from base64
(bytes 0,0,0). -/
theorem tx_returnValue_not_base64 :
    serverGetTransaction rawTx0 ≠ serverGetTransactionClaim rawTx0 := by decide

/-- C7 amended: in every transaction query response, `envelopeXdr` and
`resultXdr` are base64-encoded XDR strings the caller decodes;
`returnValue`, when present, is decoded from the raw bytes of the JSON
value with no base64 step. -/
theorem tx_query_decoding (raw : RawTxResponse) :
    (serverGetTransaction raw).envelopeXdr = base64Decode raw.envelopeXdr ∧
    (serverGetTransaction raw).resultXdr = base64Decode raw.resultXdr ∧
    (serverGetTransaction raw).returnValue = raw.returnValue.map bufferFrom :=
  ⟨rfl, rfl, rfl⟩

/-- C8: when simulation ends in a host-evaluator trap (or
missing-function/contract error), `simulateTransaction` returns normally
with an error-tagged result carrying the evaluator's human-readable
diagnostic, passed through without any XDR decoding of `transactionData`
or auth entries, and the persisted state is untouched. -/
theorem simulate_trap_returns_error_result (hi : HostInterface) (s : SandboxState)
    (e : Envelope) (msg : String)
    (heval : hi.eval s e = EvalOutcome.trap msg) :
    serverSimulateTransaction hi s e = (SimulateTransactionResponse.err msg, s) ∧
    (simulateTx hi s e).1 = SimulateTxResult.err msg := by
  simp [serverSimulateTransaction, simulateTx, heval]

/-- Witness for C8 at a concrete trapping evaluator. -/
theorem simulate_trap_returns_error_result_witness :
    serverSimulateTransaction hiTrap stateA envA =
      (SimulateTransactionResponse.err "boom", stateA) ∧
    (simulateTx hiTrap stateA envA).1 = SimulateTxResult.err "boom" :=
  simulate_trap_returns_error_result hiTrap stateA envA "boom" rfl

/-- C9: clock controls take effect immediately and accept any
non-negative values, backward jumps included: after `setTime t` and
`setSequence n`, `getLedgerInfo` reports timestamp `t` and sequence
number `n` (at `t = 1200`, `n = 1301` this is the spec's concrete
scenario). -/
theorem clock_control_immediate (s : SandboxState) (t n : Nat) :
    (getLedgerInfo (setSequence (setTime s t) n)).timestamp = t ∧
    (getLedgerInfo (setSequence (setTime s t) n)).sequence_number = n :=
  ⟨rfl, rfl⟩

/-- C10: omitting the durability argument of
`SandboxServer.getContractData` queries with persistent durability. -/
theorem getContractData_defaults_persistent (s : SandboxState)
    (contract key : String) :
    serverGetContractData s contract key none =
      serverGetContractData s contract key (some Durability.persistent) := rfl

end MarsRover
